import Mathlib

/-!
Verification of the Alchemy engine's operation registry, execution and
marshalling pipeline, and dynamic field synthesis, as a shallow embedding
of `engine/src/api/schema/operations/mod.rs`, `engine/src/api/schema/mod.rs`
and `engine/src/api/schema/errors.rs`.

Machine integers are embedded as `Int`/`Nat` with explicit casts where the
Rust code casts; fallible or panicking code paths return `Option` (`none`
models a Rust panic such as `.unwrap()` on an `Err`/`None`).
-/

namespace Alchemy

/-- Opaque carrier for a Rust `f64` payload.  The engine never computes on
floating-point values: it only moves them between representations, so the
payload is modelled as an uninterpreted bit pattern. -/
structure Float64 where
  bits : Nat
  deriving DecidableEq, Repr

/-- Embedding of `serde_json::Number` (crate `serde_json`, arbitrary-precision
feature off): internally one of `PosInt(u64)`, `NegInt(i64)` or `Float(f64)`. -/
inductive JsonNumber : Type
  | posInt (n : Nat) : JsonNumber
  | negInt (n : Int) : JsonNumber
  | floatNum (f : Float64) : JsonNumber
  deriving DecidableEq, Repr

/-- Rust `i64::MAX`. -/
def i64Max : Int := 9223372036854775807

/-- Rust `i32::MAX`. -/
def i32Max : Int := 2147483647

/-- Rust `i32::MIN`. -/
def i32Min : Int := -2147483648

/-- Rust `i32::MAX as u64`. -/
def i32MaxAsU64 : Nat := 2147483647

/-- Rust `i32::MIN as u64` (sign extension then reinterpretation: 2^64 - 2^31). -/
def i32MinAsU64 : Nat := 18446744071562067968

/-- Rust `v as i32` for a signed 64-bit value: truncation to the low 32 bits,
reinterpreted as signed. -/
def castI64ToI32 (v : Int) : Int :=
  let m := v % 4294967296
  if m < 2147483648 then m else m - 4294967296

/-- Rust `v as i32` for an unsigned 64-bit value: truncation to the low 32 bits,
reinterpreted as signed. -/
def castU64ToI32 (v : Nat) : Int :=
  let m : Int := (v : Int) % 4294967296
  if m < 2147483648 then m else m - 4294967296

/-- Embedding of `serde_json::Number::is_i64`: true when the number is an
integer representable as `i64`. -/
def JsonNumber.is_i64 : JsonNumber → Bool
  | .posInt n => decide ((n : Int) ≤ i64Max)
  | .negInt _ => true
  | .floatNum _ => false

/-- Embedding of `serde_json::Number::is_u64`: true when the number is stored
as an unsigned integer. -/
def JsonNumber.is_u64 : JsonNumber → Bool
  | .posInt _ => true
  | .negInt _ => false
  | .floatNum _ => false

/-- Embedding of `serde_json::Number::as_i64`. -/
def JsonNumber.as_i64 : JsonNumber → Option Int
  | .posInt n => if (n : Int) ≤ i64Max then some (n : Int) else none
  | .negInt n => some n
  | .floatNum _ => none

/-- Embedding of `serde_json::Number::as_u64`. -/
def JsonNumber.as_u64 : JsonNumber → Option Nat
  | .posInt n => some n
  | .negInt _ => none
  | .floatNum _ => none

/-- Embedding of `serde_json::Number::as_f64` as used by `convert_number`:
the library also converts integer values, but `convert_number` reaches its
`as_f64` branch only when both integer tests failed, i.e. for floats. -/
def JsonNumber.as_f64 : JsonNumber → Option Float64
  | .posInt _ => none
  | .negInt _ => none
  | .floatNum f => some f

/-- Specification-side accessor: the exact integral value a `JsonNumber`
holds, when it holds one. -/
def JsonNumber.integerValue : JsonNumber → Option Int
  | .posInt n => some (n : Int)
  | .negInt n => some n
  | .floatNum _ => none

/-- Embedding of `juniper::Value<S>` over the default scalar type: the generic
value form the engine returns (`Null`, `Bool`, `Int32`, `Float64`, `String`,
`List`, `Object`). -/
inductive JValue : Type
  | null : JValue
  | boolVal (b : Bool) : JValue
  | intVal (i : Int) : JValue
  | floatVal (f : Float64) : JValue
  | strVal (s : String) : JValue
  | listVal (l : List JValue) : JValue
  | objectVal (o : List (String × JValue)) : JValue

/-- Embedding of `convert_number` (operations/mod.rs, lines 203-236): an
integral value saturates into the signed 32-bit range, a float passes through;
`none` models a panicking `.unwrap()`. -/
def convert_number (n : JsonNumber) : Option JValue :=
  if n.is_i64 then
    (n.as_i64).map (fun v =>
      let res : Int :=
        if v > i32Max then i32Max
        else if v < i32Min then i32Min
        else castI64ToI32 v
      JValue.intVal res)
  else if n.is_u64 then
    (n.as_u64).map (fun v =>
      let res : Int :=
        if v > i32MaxAsU64 then i32Max
        else if v < i32MinAsU64 then i32Min
        else castU64ToI32 v
      JValue.intVal res)
  else
    (n.as_f64).map (fun v => JValue.floatVal v)

/-- Embedding of `serde_json::Value`: `Null`, `Bool`, `Number`, `String`,
`Array`, `Object` (the object held as an ordered key/value list). -/
inductive Json : Type
  | null : Json
  | boolVal (b : Bool) : Json
  | numberVal (n : JsonNumber) : Json
  | strVal (s : String) : Json
  | arrayVal (a : List Json) : Json
  | objectVal (o : List (String × Json)) : Json

/-- Embedding of `serde_json::Value::as_object`. -/
def Json.as_object : Json → Option (List (String × Json))
  | .objectVal o => some o
  | _ => none

mutual

/-- Embedding of the inner `fn convert` of `convert_json_to_juniper_value`
(operations/mod.rs, lines 244-256): null maps to null, booleans, strings pass
through, numbers go through `convert_number`, arrays convert element-wise and
objects recurse. -/
def convertValue : Json → Option JValue
  | .null => some JValue.null
  | .boolVal b => some (JValue.boolVal b)
  | .numberVal n => convert_number n
  | .strVal s => some (JValue.strVal s)
  | .arrayVal a => (convertList a).map JValue.listVal
  | .objectVal o => convert_json_to_juniper_value o

/-- Embedding of `convert_json_to_juniper_value` (operations/mod.rs, lines
238-263): converts every field of a JSON object, preserving order. -/
def convert_json_to_juniper_value (o : List (String × Json)) : Option JValue :=
  (convertFields o).map JValue.objectVal

/-- Element-wise conversion of a JSON array (the `a.iter().map(convert)` loop). -/
def convertList : List Json → Option (List JValue)
  | [] => some []
  | x :: xs => do
      let v ← convertValue x
      let vs ← convertList xs
      pure (v :: vs)

/-- Field-wise conversion of a JSON object (the `for (key, val) in data` loop). -/
def convertFields : List (String × Json) → Option (List (String × JValue))
  | [] => some []
  | (k, x) :: xs => do
      let v ← convertValue x
      let vs ← convertFields xs
      pure ((k, v) :: vs)

end

/-- Embedding of `rust_arango::ClientError` as its display text: the code only
ever formats it with `format!("{}", e)`, so the message string is all that is
observable. -/
def ClientError : Type := String

/-- Embedding of `juniper::FieldError`: a message plus an error-data value. -/
structure FieldError where
  message : String
  data : JValue

/-- Embedding of `NotFoundError::into_field_error` (errors.rs, lines 13-17):
message `<model> not found` with null data. -/
def notFoundFieldError (model : String) : FieldError :=
  { message := model ++ " not found", data := JValue.null }

/-- Embedding of `DatabaseError::into_field_error` (errors.rs, lines 29-33):
the message passed through verbatim with null data. -/
def databaseFieldError (message : String) : FieldError :=
  { message := message, data := JValue.null }

/-- Embedding of `get_single_entry` (operations/mod.rs, lines 287-316).
`none` models the panic of `first.as_object().unwrap()` on a non-object
document; an `Err` from the store becomes a `DatabaseError` field error; an
empty document list becomes a `NotFoundError`. -/
def get_single_entry (entries : Except ClientError (List Json))
    (entity_name : String) : Option (Except FieldError JValue) :=
  match entries with
  | .ok data =>
    match data.head? with
    | some first => do
        let o ← first.as_object
        let v ← convert_json_to_juniper_value o
        pure (Except.ok v)
    | none => some (Except.error (notFoundFieldError entity_name))
  | .error e => some (Except.error (databaseFieldError e))

/-- Document-list conversion loop of `get_multiple_entries` (the
`for datum in data` loop, each `datum.as_object().unwrap()` then converted;
`none` models the panic on a non-object document). -/
def convertDocuments : List Json → Option (List JValue)
  | [] => some []
  | d :: ds => do
      let o ← d.as_object
      let v ← convert_json_to_juniper_value o
      let vs ← convertDocuments ds
      pure (v :: vs)

/-- Embedding of `get_multiple_entries` (operations/mod.rs, lines 318-342):
every document converts into a list in order; an `Err` from the store becomes
a `DatabaseError` field error. -/
def get_multiple_entries (entries : Except ClientError (List Json)) :
    Option (Except FieldError JValue) :=
  match entries with
  | .ok data => (convertDocuments data).map (fun out => Except.ok (JValue.listVal out))
  | .error e => some (Except.error (databaseFieldError e))

/-- Embedding of `juniper::DefaultScalarValue`: `Int(i32)`, `Float(f64)`,
`String`, `Boolean`. -/
inductive DefaultScalarValue : Type
  | intScalar (i : Int) : DefaultScalarValue
  | floatScalar (f : Float64) : DefaultScalarValue
  | stringScalar (s : String) : DefaultScalarValue
  | booleanScalar (b : Bool) : DefaultScalarValue
  deriving DecidableEq, Repr

/-- Embedding of `ScalarValue::as_int` for the default scalar. -/
def DefaultScalarValue.as_int : DefaultScalarValue → Option Int
  | .intScalar i => some i
  | _ => none

/-- Embedding of `ScalarValue::as_float` as used in the binding loop: the
library also widens `Int` to a float, but the loop tests `as_int` first, so
only the `Float` case is ever reached here. -/
def DefaultScalarValue.as_float : DefaultScalarValue → Option Float64
  | .floatScalar f => some f
  | _ => none

/-- Embedding of `ScalarValue::as_string` for the default scalar. -/
def DefaultScalarValue.as_string : DefaultScalarValue → Option String
  | .stringScalar s => some s
  | _ => none

/-- Embedding of `juniper::InputValue`: `Null`, `Scalar`, `Enum`, `Variable`,
`List`, `Object` (`Variable` spelled `variableRef` because `variable` is a
Lean keyword). -/
inductive InputValue : Type
  | null : InputValue
  | scalar (s : DefaultScalarValue) : InputValue
  | enumValue (v : String) : InputValue
  | variableRef (n : String) : InputValue
  | list (l : List InputValue) : InputValue
  | object (o : List (String × InputValue)) : InputValue

/-- Non-scalar input values: everything the binding loop's wildcard arm
catches (null, enum, variable, list, object). -/
def InputValue.isNonScalar : InputValue → Bool
  | .scalar _ => false
  | _ => true

/-- Value actually bound into the store query by the binding loop. -/
inductive BindValue : Type
  | intBind (i : Int) : BindValue
  | floatBind (f : Float64) : BindValue
  | strBind (s : String) : BindValue
  deriving DecidableEq, Repr

/-- Modelled from the spec: the `AQLQuery` value of `lib/database/aql.rs` is
not under src/; per the spec it carries a target-collection reference and a
bind-name table, and `argument_key(name)` returns a namespaced placeholder
identifier so composed predicates never collide two binds of the same logical
name.  Only the numeric namespace id is needed here. -/
structure AQLQuery where
  id : Nat
  deriving DecidableEq, Repr

/-- Modelled from the spec: `AQLQuery::get_argument_key` (lib/database/aql.rs,
not under src/) — a placeholder identifier namespaced by the query id. -/
def AQLQuery.get_argument_key (q : AQLQuery) (name : String) : String :=
  "arg_" ++ toString q.id ++ "_" ++ name

/-- Diagnostic line printed by the binding loop's wildcard arm. -/
def nonScalarWarning (key : String) : String :=
  "WARN: Using non-scalar for query arguments (" ++ key ++ ")"

/-- Embedding of the argument-binding loop of `execute_query`
(operations/mod.rs, lines 423-445; the identical loop appears in
`execute_internal_query`, lines 367-389): scalar ints, floats and strings are
bound under `query.get_argument_key(key)`; any other value only emits a
diagnostic.  Returns the bind list and the printed diagnostics, in loop
order. -/
def bindQueryArguments (query : AQLQuery) :
    List (String × InputValue) → List (String × BindValue) × List String
  | [] => ([], [])
  | (key, value) :: rest =>
    let acc := bindQueryArguments query rest
    match value with
    | .scalar s =>
      match s.as_int with
      | some i => ((query.get_argument_key key, BindValue.intBind i) :: acc.1, acc.2)
      | none =>
        match s.as_float with
        | some f => ((query.get_argument_key key, BindValue.floatBind f) :: acc.1, acc.2)
        | none =>
          match s.as_string with
          | some str => ((query.get_argument_key key, BindValue.strBind str) :: acc.1, acc.2)
          | none => acc
    | _ => (acc.1, nonScalarWarning key :: acc.2)

/-- Embedding of the tail of `execute_internal_query` (operations/mod.rs,
lines 391-400): the store's result is consumed with `entries.unwrap()`, so an
`Err` is a process panic, modelled as `none`. -/
def execute_internal_query_result (entries : Except ClientError (List Json)) :
    Option (List Json) :=
  match entries with
  | .ok data => some data
  | .error _ => none

/-- Embedding of `QueryReturnType` (operations/mod.rs, lines 344-347). -/
inductive QueryReturnType : Type
  | single : QueryReturnType
  | multiple : QueryReturnType
  deriving DecidableEq, Repr

/-- Embedding of the result shaping at the end of `execute_query`
(operations/mod.rs, lines 456-459): `Single` goes through `get_single_entry`,
`Multiple` through `get_multiple_entries`. -/
def execute_query_shape (entries : Except ClientError (List Json))
    (entity_name : String) (return_type : QueryReturnType) :
    Option (Except FieldError JValue) :=
  match return_type with
  | .single => get_single_entry entries entity_name
  | .multiple => get_multiple_entries entries

/-- Modelled from the spec: logical operator of `AQLLogicalFilter`
(lib/database/aql.rs, not under src/) — AND or OR. -/
inductive AQLLogicalOperator : Type
  | and : AQLLogicalOperator
  | or : AQLLogicalOperator
  deriving DecidableEq, Repr

/-- Modelled from the spec: comparison operator of `AQLFilterOperation`
(lib/database/aql.rs, not under src/) — minimally `Equal`, the only operator
the constructions under src/ use. -/
inductive AQLOperation : Type
  | equal : AQLOperation
  deriving DecidableEq, Repr

/-- Modelled from the spec: the AST node family of lib/database/aql.rs (not
under src/) — `FilterOperation(left, operator, right)`,
`LogicalFilter(operator, nodes)`, `QueryParameter(name)` (attribute accessor)
and `QueryBind(name)` (placeholder reference), exactly the constructors the
code under src/ builds. -/
inductive AQLNode : Type
  | filterOperation (left_node : AQLNode) (operation : AQLOperation)
      (right_node : AQLNode) : AQLNode
  | logicalFilter (operation : AQLLogicalOperator) (nodes : List AQLNode) : AQLNode
  | queryParameter (name : String) : AQLNode
  | queryBind (name : String) : AQLNode

mutual

/-- Names of all `QueryBind` placeholders occurring in a node, left to right. -/
def AQLNode.bindNames : AQLNode → List String
  | .filterOperation l _ r => l.bindNames ++ r.bindNames
  | .logicalFilter _ nodes => bindNamesList nodes
  | .queryParameter _ => []
  | .queryBind name => [name]

/-- Bind names of a node list, in order. -/
def bindNamesList : List AQLNode → List String
  | [] => []
  | n :: ns => n.bindNames ++ bindNamesList ns

end

/-- Embedding of `get_filter_by_indices_attributes` (operations/mod.rs, lines
265-285): one `FilterOperation(QueryParameter(key), Equal, QueryBind(key))`
per key, combined under a single AND `LogicalFilter`.  The source iterates a
`HashMap`; the embedding keeps the iteration order as the list order. -/
def get_filter_by_indices_attributes (attributes : List (String × InputValue)) :
    AQLNode :=
  AQLNode.logicalFilter AQLLogicalOperator.and
    (attributes.map (fun kv =>
      AQLNode.filterOperation
        (AQLNode.queryParameter kv.1)
        AQLOperation.equal
        (AQLNode.queryBind kv.1)))

/-- Embedding of `ScalarType` (lib/database/api.rs, not under src/; the
variants are those matched by `build_field_from_property` under src/ and
listed by the spec): `String`, `Int`, `Float`, `Boolean`, `Object`,
`Enum(name)`, `Array(ScalarType)`. -/
inductive ScalarType : Type
  | string : ScalarType
  | int : ScalarType
  | float : ScalarType
  | boolean : ScalarType
  | object : ScalarType
  | enum (name : String) : ScalarType
  | array (t : ScalarType) : ScalarType
  deriving DecidableEq, Repr

/-- Embedding of `GraphQLProperty` (lib/database/api.rs, not under src/; the
fields are those the code under src/ reads): name, scalar type, required
flag. -/
structure GraphQLProperty where
  name : String
  scalar_type : ScalarType
  required : Bool
  deriving DecidableEq, Repr

/-- Embedding of `DbEntity` (lib/database/api.rs, not under src/; per the
spec an entity is a name plus an ordered property list). -/
structure DbEntity where
  name : String
  properties : List GraphQLProperty
  deriving DecidableEq, Repr

/-- Modelled from the spec: relationship direction — Inbound, Outbound or
Any. -/
inductive DbRelationshipDirection : Type
  | inbound : DbRelationshipDirection
  | outbound : DbRelationshipDirection
  | any : DbRelationshipDirection
  deriving DecidableEq, Repr

/-- Embedding of `DbRelationship` (lib/database/api.rs, not under src/; the
code under src/ reads `relationship.from.name` and `relationship.name`; the
spec adds `to` and a direction).  The source fields `from` and `to` are Lean
keywords and are spelled `fromEntity` and `toEntity`. -/
structure DbRelationship where
  name : String
  fromEntity : DbEntity
  toEntity : DbEntity
  direction : DbRelationshipDirection
  deriving DecidableEq, Repr

/-- Embedding of `Operation::get_relationship_edge_name` (operations/mod.rs,
lines 186-200): the singular form (external crate `pluralizer`, count 1) of
the snake_case form (external crate `convert_case`) of the from-entity name,
an underscore, then the relationship's own name.  The two external crates'
pure string functions are parameters. -/
def get_relationship_edge_name (toSnakeCase singularize : String → String)
    (relationship : DbRelationship) : String :=
  singularize (toSnakeCase relationship.fromEntity.name) ++ "_"
    ++ relationship.name

/-- Embedding of `SchemaKind` (crate::api::schema, not under src/ in this
form; per the spec a category of Query or Mutation). -/
inductive SchemaKind : Type
  | query : SchemaKind
  | mutation : SchemaKind
  deriving DecidableEq, Repr

/-- The seven `Operation` implementations registered by `register_entity`
(operations/mod.rs, lines 118-126): Get, GetAll, Update, UpdateAll, Remove,
RemoveAll, Create. -/
inductive OperationKind : Type
  | get : OperationKind
  | getAll : OperationKind
  | create : OperationKind
  | update : OperationKind
  | updateAll : OperationKind
  | remove : OperationKind
  | removeAll : OperationKind
  deriving DecidableEq, Repr

/-- Modelled from the spec: the external pluralizer crate used by the
operation-name implementations (operations/get.rs and friends, not under
src/); the spec only requires that list operations use the pluralized entity
name, modelled as appending an s. -/
def pluralizeName (name : String) : String := name ++ "s"

/-- Modelled from the spec: `T::get_operation_name` of the seven operation
implementations (operations/get.rs and friends, not under src/) — a stable
key derived from entity name plus kind, singular for single-item operations
and plural for list operations. -/
def operationName : OperationKind → String → String
  | .get, n => "get" ++ n
  | .getAll, n => "get" ++ pluralizeName n
  | .create, n => "create" ++ n
  | .update, n => "update" ++ n
  | .updateAll, n => "update" ++ pluralizeName n
  | .remove, n => "remove" ++ n
  | .removeAll, n => "remove" ++ pluralizeName n

/-- Embedding of `OperationData` (operations/mod.rs, lines 150-158): the
entity and the relationships it owns. -/
structure OperationData where
  entity : DbEntity
  relationships : List DbRelationship
  deriving DecidableEq, Repr

/-- Embedding of `OperationEntry` (operations/mod.rs, lines 49-68): the three
closures are those of the registered implementation and carry no state, so
they are represented by the implementation's kind tag. -/
structure OperationEntry where
  data : OperationData
  kind : SchemaKind
  opKind : OperationKind
  deriving DecidableEq, Repr

/-- Embedding of `std::collections::HashMap<String, A>` by its observable
behaviour: an association list with at most one entry per key; `insert`
replaces the existing entry for a key, else appends. -/
abbrev StrMap (α : Type) : Type := List (String × α)

/-- Embedding of `HashMap::insert`: silently replaces the value of an
existing key, otherwise adds the pair. -/
def StrMap.insert {α : Type} (m : StrMap α) (k : String) (v : α) : StrMap α :=
  if (List.any m (fun p => p.1 = k)) then
    List.map (fun p => if p.1 = k then (k, v) else p) m
  else
    m ++ [(k, v)]

/-- Embedding of `HashMap::get`. -/
def StrMap.find? {α : Type} (m : StrMap α) (k : String) : Option α :=
  (List.find? (fun p => p.1 = k) m).map (fun p => p.2)

/-- Embedding of `HashMap::len`. -/
def StrMap.size {α : Type} (m : StrMap α) : Nat := List.length m

/-- Keys of the map, in insertion order. -/
def StrMap.keys {α : Type} (m : StrMap α) : List String :=
  List.map (fun p => p.1) m

/-- Embedding of `OperationRegistry` (operations/mod.rs, lines 41-47). -/
structure OperationRegistry where
  operation_data : StrMap OperationData
  operations : StrMap OperationEntry

/-- Embedding of `OperationRegistry::new` (operations/mod.rs, lines 74-79). -/
def OperationRegistry.new : OperationRegistry :=
  { operation_data := [], operations := [] }

/-- Embedding of `OperationRegistry::register` (operations/mod.rs, lines
129-147): inserts under `T::get_operation_name(&data)` and returns the key;
there is no duplicate check, `HashMap::insert` silently overwrites. -/
def OperationRegistry.register (self : OperationRegistry)
    (opKind : OperationKind) (data : OperationData) (kind : SchemaKind) :
    OperationRegistry × String :=
  let k := operationName opKind data.entity.name
  ({ self with
      operations := self.operations.insert k
        { data := data, kind := kind, opKind := opKind } },
   k)

/-- Embedding of `OperationRegistry::register_entity` (operations/mod.rs,
lines 107-127): stores the shared `OperationData`, then registers, in source
order, Get and GetAll as queries and Update, UpdateAll, Remove, RemoveAll,
Create as mutations. -/
def OperationRegistry.register_entity (self : OperationRegistry)
    (entity : DbEntity) (relationships : List DbRelationship) :
    OperationRegistry :=
  let data : OperationData := { entity := entity, relationships := relationships }
  let r0 : OperationRegistry :=
    { self with operation_data := self.operation_data.insert entity.name data }
  let r1 := (r0.register OperationKind.get data SchemaKind.query).1
  let r2 := (r1.register OperationKind.getAll data SchemaKind.query).1
  let r3 := (r2.register OperationKind.update data SchemaKind.mutation).1
  let r4 := (r3.register OperationKind.updateAll data SchemaKind.mutation).1
  let r5 := (r4.register OperationKind.remove data SchemaKind.mutation).1
  let r6 := (r5.register OperationKind.removeAll data SchemaKind.mutation).1
  (r6.register OperationKind.create data SchemaKind.mutation).1

/-- Embedding of `juniper::Type`: `Named`, `NonNullNamed`, `List`,
`NonNullList`. -/
inductive FieldType : Type
  | named (n : String) : FieldType
  | nonNullNamed (n : String) : FieldType
  | list (inner : FieldType) : FieldType
  | nonNullList (inner : FieldType) : FieldType
  deriving DecidableEq, Repr

/-- Embedding of `juniper::meta::Field`: the field name and its type
descriptor. -/
structure Field where
  name : String
  field_type : FieldType
  deriving DecidableEq, Repr

/-- Embedding of the inner `fn build_field` of `build_field_from_property`
(schema/mod.rs, lines 104-120): `registry.field::<T>` yields a non-null named
type, `registry.field::<Option<T>>` a nullable one; the non-null form is used
only when the property is required and its own scalar type is not an array. -/
def build_field (typeName : String) (property : GraphQLProperty)
    (required : Bool) : Field :=
  let is_array :=
    match property.scalar_type with
    | ScalarType.array _ => true
    | _ => false
  if required && !is_array then
    { name := property.name, field_type := FieldType.nonNullNamed typeName }
  else
    { name := property.name, field_type := FieldType.named typeName }

/-- Embedding of `build_field_from_property` (schema/mod.rs, lines 95-142):
leaf scalars map to their GraphQL type names; `Array(t)` recurses on `t` with
non-null enforcement off, then wraps the result as `NonNullList` exactly when
the property is required and enforcement is on, else as `List`. -/
def build_field_from_property (property : GraphQLProperty) :
    ScalarType → Bool → Field
  | ScalarType.array t, enforce_required =>
    let field := build_field_from_property property t false
    if property.required && enforce_required then
      { field with field_type := FieldType.nonNullList field.field_type }
    else
      { field with field_type := FieldType.list field.field_type }
  | ScalarType.enum _, _ => build_field "String" property property.required
  | ScalarType.string, _ => build_field "String" property property.required
  | ScalarType.object, _ => build_field "String" property property.required
  | ScalarType.float, _ => build_field "Float" property property.required
  | ScalarType.int, _ => build_field "Int" property property.required
  | ScalarType.boolean, _ => build_field "Boolean" property property.required

/-- Child nodes of a logical filter (empty for every other node shape). -/
def AQLNode.topNodes : AQLNode → List AQLNode
  | .logicalFilter _ ns => ns
  | _ => []

/-- Whether a field type descriptor is list-typed. -/
def FieldType.isList : FieldType → Bool
  | .list _ => true
  | .nonNullList _ => true
  | _ => false

/-- Whether a field type descriptor carries the non-null marker. -/
def FieldType.isNonNull : FieldType → Bool
  | .nonNullNamed _ => true
  | .nonNullList _ => true
  | _ => false

/-- Element descriptor of a list-typed field descriptor. -/
def FieldType.listInner : FieldType → Option FieldType
  | .list t => some t
  | .nonNullList t => some t
  | _ => none

/-- The entity of the spec's end-to-end example: `Book{title:String!, year:Int}`. -/
def bookEntity : DbEntity :=
  { name := "Book",
    properties :=
      [ { name := "title", scalar_type := ScalarType.string, required := true },
        { name := "year", scalar_type := ScalarType.int, required := false } ] }

/-- A second, distinguishable entity that shares the name `Book`, used to
exhibit silent overwriting of duplicate operation keys. -/
def bookEntityAlt : DbEntity :=
  { name := "Book",
    properties :=
      [ { name := "title", scalar_type := ScalarType.string, required := true } ] }

/-! Theorems. -/

/-- Disequality of strings via their character lists. -/
theorem string_ne_of_data_ne {s t : String} (h : s.data ≠ t.data) : s ≠ t :=
  fun he => h (congrArg String.data he)

/-- C1 (amended): registering an entity from the Metadata Map yields exactly
seven operation entries in the registry — `register_entity` registers the
seven implementations Get, GetAll, Update, UpdateAll, Remove, RemoveAll and
Create, whose operation names are pairwise distinct for every entity name. -/
theorem register_entity_seven_ops (entity : DbEntity)
    (relationships : List DbRelationship) :
    ((OperationRegistry.new).register_entity entity relationships).operations.size
      = 7 := by
  have ne12 : ("get" ++ entity.name) ≠ ("get" ++ (entity.name ++ "s")) := by
    intro he; have h2 := congrArg String.data he; simp [String.append] at h2
  have ne13 : ("get" ++ entity.name) ≠ ("update" ++ entity.name) := by
    intro he; have h2 := congrArg String.data he; simp [String.append] at h2
  have ne14 : ("get" ++ entity.name) ≠ ("update" ++ (entity.name ++ "s")) := by
    intro he; have h2 := congrArg String.data he; simp [String.append] at h2
  have ne15 : ("get" ++ entity.name) ≠ ("remove" ++ entity.name) := by
    intro he; have h2 := congrArg String.data he; simp [String.append] at h2
  have ne16 : ("get" ++ entity.name) ≠ ("remove" ++ (entity.name ++ "s")) := by
    intro he; have h2 := congrArg String.data he; simp [String.append] at h2
  have ne17 : ("get" ++ entity.name) ≠ ("create" ++ entity.name) := by
    intro he; have h2 := congrArg String.data he; simp [String.append] at h2
  have ne23 : ("get" ++ (entity.name ++ "s")) ≠ ("update" ++ entity.name) := by
    intro he; have h2 := congrArg String.data he; simp [String.append] at h2
  have ne24 : ("get" ++ (entity.name ++ "s")) ≠ ("update" ++ (entity.name ++ "s")) := by
    intro he; have h2 := congrArg String.data he; simp [String.append] at h2
  have ne25 : ("get" ++ (entity.name ++ "s")) ≠ ("remove" ++ entity.name) := by
    intro he; have h2 := congrArg String.data he; simp [String.append] at h2
  have ne26 : ("get" ++ (entity.name ++ "s")) ≠ ("remove" ++ (entity.name ++ "s")) := by
    intro he; have h2 := congrArg String.data he; simp [String.append] at h2
  have ne27 : ("get" ++ (entity.name ++ "s")) ≠ ("create" ++ entity.name) := by
    intro he; have h2 := congrArg String.data he; simp [String.append] at h2
  have ne34 : ("update" ++ entity.name) ≠ ("update" ++ (entity.name ++ "s")) := by
    intro he; have h2 := congrArg String.data he; simp [String.append] at h2
  have ne35 : ("update" ++ entity.name) ≠ ("remove" ++ entity.name) := by
    intro he; have h2 := congrArg String.data he; simp [String.append] at h2
  have ne36 : ("update" ++ entity.name) ≠ ("remove" ++ (entity.name ++ "s")) := by
    intro he; have h2 := congrArg String.data he; simp [String.append] at h2
  have ne37 : ("update" ++ entity.name) ≠ ("create" ++ entity.name) := by
    intro he; have h2 := congrArg String.data he; simp [String.append] at h2
  have ne45 : ("update" ++ (entity.name ++ "s")) ≠ ("remove" ++ entity.name) := by
    intro he; have h2 := congrArg String.data he; simp [String.append] at h2
  have ne46 : ("update" ++ (entity.name ++ "s")) ≠ ("remove" ++ (entity.name ++ "s")) := by
    intro he; have h2 := congrArg String.data he; simp [String.append] at h2
  have ne47 : ("update" ++ (entity.name ++ "s")) ≠ ("create" ++ entity.name) := by
    intro he; have h2 := congrArg String.data he; simp [String.append] at h2
  have ne56 : ("remove" ++ entity.name) ≠ ("remove" ++ (entity.name ++ "s")) := by
    intro he; have h2 := congrArg String.data he; simp [String.append] at h2
  have ne57 : ("remove" ++ entity.name) ≠ ("create" ++ entity.name) := by
    intro he; have h2 := congrArg String.data he; simp [String.append] at h2
  have ne67 : ("remove" ++ (entity.name ++ "s")) ≠ ("create" ++ entity.name) := by
    intro he; have h2 := congrArg String.data he; simp [String.append] at h2
  simp [OperationRegistry.register_entity, OperationRegistry.register,
    OperationRegistry.new, StrMap.insert, StrMap.size, operationName,
    pluralizeName, ne12, ne13, ne14, ne15, ne16, ne17, ne23, ne24, ne25, ne26,
    ne27, ne34, ne35, ne36, ne37, ne45, ne46, ne47, ne56, ne57, ne67]

/-- C1 counterexample: registering the single entity
`Book{title:String!, year:Int}` with no relationships does not yield six
operation entries — `register_entity` registers seven implementations
(Create included), so the registry holds seven entries. -/
theorem register_entity_book_not_six :
    ((OperationRegistry.new).register_entity bookEntity []).operations.size ≠ 6 := by
  decide

/-- Truncating cast is the identity inside the signed 32-bit range. -/
theorem castI64ToI32_eq_self (v : Int) (h1 : i32Min ≤ v) (h2 : v ≤ i32Max) :
    castI64ToI32 v = v := by
  simp only [castI64ToI32, i32Min, i32Max] at *
  omega

/-- C3: conversion of a JSON number to the generic value form saturates
integral values into the signed 32-bit range (values above the maximum become
the maximum, values below the minimum become the minimum, in-range values are
unchanged), passes floating values through unchanged, and never fails or
panics (the result is always `some`, so the `.unwrap()` calls never fire on
`None`). -/
theorem convert_number_saturates :
    (∀ (n : JsonNumber) (v : Int), n.integerValue = some v →
       ((i32Max < v → convert_number n = some (JValue.intVal i32Max)) ∧
        (v < i32Min → convert_number n = some (JValue.intVal i32Min)) ∧
        (i32Min ≤ v → v ≤ i32Max → convert_number n = some (JValue.intVal v))))
    ∧ (∀ f : Float64,
        convert_number (JsonNumber.floatNum f) = some (JValue.floatVal f))
    ∧ (∀ n : JsonNumber, (convert_number n).isSome = true) := by
  refine ⟨?_, ?_, ?_⟩
  · intro n v hv
    cases n with
    | posInt m =>
      simp only [JsonNumber.integerValue, Option.some.injEq] at hv
      subst hv
      refine ⟨?_, ?_, ?_⟩
      · intro hgt
        by_cases hle : (m : Int) ≤ i64Max
        · simp [convert_number, JsonNumber.is_i64, JsonNumber.as_i64, hle, hgt]
        · have hmax : m > i32MaxAsU64 := by
            simp only [i64Max] at hle
            simp only [i32MaxAsU64]
            omega
          simp [convert_number, JsonNumber.is_i64, JsonNumber.as_i64,
            JsonNumber.is_u64, JsonNumber.as_u64, hle, hmax]
      · intro hlt
        exfalso
        simp only [i32Min] at hlt
        omega
      · intro hlo hhi
        have hle : (m : Int) ≤ i64Max := by
          simp only [i32Max] at hhi
          simp only [i64Max]
          omega
        have h1 : ¬ ((m : Int) > i32Max) := not_lt.mpr hhi
        have h2 : ¬ ((m : Int) < i32Min) := not_lt.mpr hlo
        have hc := castI64ToI32_eq_self (m : Int) hlo hhi
        simp [convert_number, JsonNumber.is_i64, JsonNumber.as_i64, hle, h1,
          h2, hc]
    | negInt m =>
      simp only [JsonNumber.integerValue, Option.some.injEq] at hv
      subst hv
      refine ⟨?_, ?_, ?_⟩
      · intro hgt
        simp [convert_number, JsonNumber.is_i64, JsonNumber.as_i64, hgt]
      · intro hlt
        have hgt : ¬ (m > i32Max) := by
          simp only [i32Max]
          simp only [i32Min] at hlt
          omega
        simp [convert_number, JsonNumber.is_i64, JsonNumber.as_i64, hgt, hlt]
      · intro hlo hhi
        have h1 : ¬ (m > i32Max) := not_lt.mpr hhi
        have h2 : ¬ (m < i32Min) := not_lt.mpr hlo
        have hc := castI64ToI32_eq_self m hlo hhi
        simp [convert_number, JsonNumber.is_i64, JsonNumber.as_i64, h1, h2, hc]
    | floatNum f => cases hv
  · intro f
    simp [convert_number, JsonNumber.is_i64, JsonNumber.is_u64, JsonNumber.as_f64]
  · intro n
    cases n with
    | posInt m =>
      by_cases hle : (m : Int) ≤ i64Max
      · simp [convert_number, JsonNumber.is_i64, JsonNumber.as_i64, hle]
      · simp [convert_number, JsonNumber.is_i64, JsonNumber.as_i64,
          JsonNumber.is_u64, JsonNumber.as_u64, hle]
    | negInt m =>
      simp [convert_number, JsonNumber.is_i64, JsonNumber.as_i64]
    | floatNum f =>
      simp [convert_number, JsonNumber.is_i64, JsonNumber.is_u64, JsonNumber.as_f64]

/-- C3 witness: the spec's concrete saturation cases — the integral source
5000000000 converts to the 32-bit maximum, -1 converts to itself, and a
floating source passes through. -/
theorem convert_number_saturates_witness :
    convert_number (JsonNumber.posInt 5000000000)
        = some (JValue.intVal i32Max)
      ∧ convert_number (JsonNumber.negInt (-1)) = some (JValue.intVal (-1))
      ∧ convert_number (JsonNumber.floatNum { bits := 17 })
        = some (JValue.floatVal { bits := 17 }) :=
  ⟨(convert_number_saturates.1 (JsonNumber.posInt 5000000000) 5000000000 rfl).1
      (by decide),
   (convert_number_saturates.1 (JsonNumber.negInt (-1)) (-1) rfl).2.2
      (by decide) (by decide),
   convert_number_saturates.2.1 { bits := 17 }⟩

/-- C2: shaping a store result in Single mode — an empty document list yields
the NotFound field error (message `<entity> not found`, null data), and a
non-empty list yields the first document converted to the generic value
form. -/
theorem get_single_entry_shapes :
    (∀ name : String,
        get_single_entry (Except.ok []) name
          = some (Except.error
              { message := name ++ " not found", data := JValue.null }))
    ∧ (∀ (name : String) (m : List (String × Json)) (rest : List Json),
        get_single_entry (Except.ok (Json.objectVal m :: rest)) name
          = (convert_json_to_juniper_value m).map Except.ok) := by
  constructor
  · intro name
    rfl
  · intro name m rest
    simp only [get_single_entry, List.head?, Json.as_object]
    cases h : convert_json_to_juniper_value m <;> simp [h, Option.bind]

/-- Conversion loop of `get_multiple_entries` agrees with monadic map over
the documents, hence preserves order. -/
theorem convertDocuments_eq_mapM (docs : List (List (String × Json))) :
    convertDocuments (docs.map Json.objectVal)
      = List.mapM convert_json_to_juniper_value docs := by
  induction docs with
  | nil => rfl
  | cons d ds ih =>
    simp only [List.map_cons, convertDocuments, Json.as_object, List.mapM_cons,
      ih]
    cases h : convert_json_to_juniper_value d <;> simp [h, Option.bind]

/-- C8: shaping a store result in Multiple mode — every document is converted
in order and the operation returns the list of conversions; an empty document
list yields an empty list result, not an error. -/
theorem get_multiple_entries_shapes :
    (get_multiple_entries (Except.ok []) = some (Except.ok (JValue.listVal [])))
    ∧ (∀ docs : List (List (String × Json)),
        get_multiple_entries (Except.ok (docs.map Json.objectVal))
          = (List.mapM convert_json_to_juniper_value docs).map
              (fun out => Except.ok (JValue.listVal out))) := by
  constructor
  · rfl
  · intro docs
    simp [get_multiple_entries, convertDocuments_eq_mapM]

/-- C7: divergence at a store failure — `execute_query` surfaces the store's
error text verbatim as a field error with null data through both shaping
modes, but `execute_internal_query` consumes the same result with
`entries.unwrap()`, which is a process panic (modelled as `none`) on any
store failure. -/
theorem store_failure_divergence :
    (∀ e : ClientError, execute_internal_query_result (Except.error e) = none)
    ∧ (∀ (e : ClientError) (name : String) (rt : QueryReturnType),
        execute_query_shape (Except.error e) name rt
          = some (Except.error { message := e, data := JValue.null })) := by
  constructor
  · intro e
    rfl
  · intro e name rt
    cases rt <;> rfl

/-- C5: argument binding for query execution — a scalar integer, float or
string argument is bound under the query's argument key, while every
non-scalar argument (null, enum, variable, list, object) contributes no bind
and only a printed diagnostic; the loop always completes, so the request is
never rejected. -/
theorem bind_scalar_arguments (q : AQLQuery) (key : String)
    (rest : List (String × InputValue)) :
    (∀ i : Int,
        bindQueryArguments q
            ((key, InputValue.scalar (DefaultScalarValue.intScalar i)) :: rest)
          = ((q.get_argument_key key, BindValue.intBind i)
                :: (bindQueryArguments q rest).1,
             (bindQueryArguments q rest).2))
    ∧ (∀ f : Float64,
        bindQueryArguments q
            ((key, InputValue.scalar (DefaultScalarValue.floatScalar f)) :: rest)
          = ((q.get_argument_key key, BindValue.floatBind f)
                :: (bindQueryArguments q rest).1,
             (bindQueryArguments q rest).2))
    ∧ (∀ s : String,
        bindQueryArguments q
            ((key, InputValue.scalar (DefaultScalarValue.stringScalar s)) :: rest)
          = ((q.get_argument_key key, BindValue.strBind s)
                :: (bindQueryArguments q rest).1,
             (bindQueryArguments q rest).2))
    ∧ (∀ v : InputValue, v.isNonScalar = true →
        bindQueryArguments q ((key, v) :: rest)
          = ((bindQueryArguments q rest).1,
             nonScalarWarning key :: (bindQueryArguments q rest).2)) := by
  refine ⟨?_, ?_, ?_, ?_⟩
  · intro i
    rfl
  · intro f
    rfl
  · intro s
    rfl
  · intro v hv
    cases v with
    | scalar s => simp [InputValue.isNonScalar] at hv
    | null => rfl
    | enumValue e => rfl
    | variableRef n => rfl
    | list l => rfl
    | object o => rfl

/-- C5 witness: at a concrete non-scalar argument the theorem yields the
skip-with-diagnostic behaviour. -/
theorem bind_scalar_arguments_witness :
    (InputValue.list []).isNonScalar = true
      ∧ bindQueryArguments { id := 0 } [("filter", InputValue.list [])]
          = ([], [nonScalarWarning "filter"]) :=
  ⟨rfl,
   (bind_scalar_arguments { id := 0 } "filter" []).2.2.2 (InputValue.list []) rfl⟩

/-- Bind names of the equality nodes built from an attribute list: exactly
the attribute keys, in order. -/
theorem bindNamesList_filters (attributes : List (String × InputValue)) :
    bindNamesList (attributes.map (fun kv =>
        AQLNode.filterOperation (AQLNode.queryParameter kv.1)
          AQLOperation.equal (AQLNode.queryBind kv.1)))
      = attributes.map Prod.fst := by
  induction attributes with
  | nil => rfl
  | cons a as ih => simp [bindNamesList, AQLNode.bindNames, ih]

/-- C4: the filter generated from an N-entry key/value map is a single AND
logical filter whose children are exactly N equality nodes, the i-th child
being `FilterOperation(QueryParameter(key_i), Equal, QueryBind(key_i))`, with
exactly one bind per key. -/
theorem get_filter_structure (attributes : List (String × InputValue)) :
    get_filter_by_indices_attributes attributes
      = AQLNode.logicalFilter AQLLogicalOperator.and
          (attributes.map (fun kv =>
            AQLNode.filterOperation (AQLNode.queryParameter kv.1)
              AQLOperation.equal (AQLNode.queryBind kv.1)))
    ∧ (get_filter_by_indices_attributes attributes).topNodes.length
        = attributes.length
    ∧ (∀ i : Nat,
        (get_filter_by_indices_attributes attributes).topNodes[i]?
          = (attributes[i]?).map (fun kv =>
              AQLNode.filterOperation (AQLNode.queryParameter kv.1)
                AQLOperation.equal (AQLNode.queryBind kv.1)))
    ∧ AQLNode.bindNames (get_filter_by_indices_attributes attributes)
        = attributes.map Prod.fst := by
  refine ⟨rfl, ?_, ?_, ?_⟩
  · simp [get_filter_by_indices_attributes, AQLNode.topNodes]
  · intro i
    simp [get_filter_by_indices_attributes, AQLNode.topNodes,
      List.getElem?_map]
  · simp only [get_filter_by_indices_attributes, AQLNode.bindNames]
    exact bindNamesList_filters attributes

/-- C9: synthesizing a field for a property of scalar type `Array(t)` yields
a list-typed descriptor whose element descriptor is the synthesis of `t` with
non-null enforcement off; the list is non-null exactly when the property is
required and enforcement is requested at this level, so nested arrays
(synthesized with enforcement off) are never non-null-wrapped. -/
theorem build_field_array_wrapping (property : GraphQLProperty)
    (t : ScalarType) (enforce_required : Bool) :
    (build_field_from_property property (ScalarType.array t)
        enforce_required).field_type.isList = true
    ∧ (build_field_from_property property (ScalarType.array t)
        enforce_required).field_type.isNonNull
        = (property.required && enforce_required)
    ∧ (build_field_from_property property (ScalarType.array t)
        enforce_required).field_type.listInner
        = some (build_field_from_property property t false).field_type
    ∧ (build_field_from_property property (ScalarType.array t)
        enforce_required).name
        = (build_field_from_property property t false).name
    ∧ (∀ t2 : ScalarType,
        (build_field_from_property property (ScalarType.array t2)
          false).field_type.isNonNull = false) := by
  cases hreq : (property.required && enforce_required) with
  | true =>
    refine ⟨?_, ?_, ?_, ?_, ?_⟩
    · simp [build_field_from_property, hreq, FieldType.isList]
    · simp [build_field_from_property, hreq, FieldType.isNonNull]
    · simp [build_field_from_property, hreq, FieldType.listInner]
    · simp [build_field_from_property, hreq]
    · intro t2
      simp [build_field_from_property, FieldType.isNonNull]
  | false =>
    refine ⟨?_, ?_, ?_, ?_, ?_⟩
    · simp [build_field_from_property, hreq, FieldType.isList]
    · simp [build_field_from_property, hreq, FieldType.isNonNull]
    · simp [build_field_from_property, hreq, FieldType.listInner]
    · simp [build_field_from_property, hreq]
    · intro t2
      simp [build_field_from_property, FieldType.isNonNull]

/-- C10: the relationship-traversal edge name is a pure function of the
relationship — the singularized snake_case from-entity name, an underscore,
then the relationship's own name — so any two relationships agreeing on
from-entity name and own name get the same edge name. -/
theorem relationship_edge_name_deterministic
    (toSnakeCase singularize : String → String) (r1 r2 : DbRelationship) :
    get_relationship_edge_name toSnakeCase singularize r1
      = singularize (toSnakeCase r1.fromEntity.name) ++ "_" ++ r1.name
    ∧ (r1.fromEntity.name = r2.fromEntity.name → r1.name = r2.name →
        get_relationship_edge_name toSnakeCase singularize r1
          = get_relationship_edge_name toSnakeCase singularize r2) := by
  refine ⟨rfl, ?_⟩
  intro h1 h2
  simp [get_relationship_edge_name, h1, h2]

/-- C10 witness: two concrete relationships sharing from-entity name and own
name but differing in target and direction get the same edge name, and the
name has the stated shape. -/
theorem relationship_edge_name_deterministic_witness :
    get_relationship_edge_name id id
        { name := "author", fromEntity := bookEntity, toEntity := bookEntity,
          direction := DbRelationshipDirection.outbound }
      = get_relationship_edge_name id id
        { name := "author", fromEntity := bookEntityAlt,
          toEntity := { name := "Person", properties := [] },
          direction := DbRelationshipDirection.inbound } :=
  (relationship_edge_name_deterministic id id
      { name := "author", fromEntity := bookEntity, toEntity := bookEntity,
        direction := DbRelationshipDirection.outbound }
      { name := "author", fromEntity := bookEntityAlt,
        toEntity := { name := "Person", properties := [] },
        direction := DbRelationshipDirection.inbound }).2 rfl rfl

/-- Inserting into a map with pairwise-distinct keys keeps the keys pairwise
distinct: replacement leaves the key list unchanged, and a fresh key is
appended only when absent. -/
theorem strmap_insert_keys_nodup {α : Type} (m : StrMap α) (k : String)
    (v : α) (h : (StrMap.keys m).Nodup) :
    (StrMap.keys (StrMap.insert m k v)).Nodup := by
  unfold StrMap.insert StrMap.keys at *
  by_cases hc : List.any m (fun p => decide (p.1 = k)) = true
  · rw [if_pos hc, List.map_map]
    have heq : List.map ((fun p => p.1)
          ∘ (fun p : String × α => if p.1 = k then (k, v) else p)) m
        = List.map (fun p => p.1) m := by
      apply List.map_congr_left
      intro p _
      by_cases hpk : p.1 = k
      · simp [hpk]
      · simp [hpk]
    rw [heq]
    exact h
  · rw [if_neg hc]
    have hk : k ∉ List.map (fun p : String × α => p.1) m := by
      intro hmem
      rcases List.mem_map.mp hmem with ⟨p, hp, hpk⟩
      exact hc (List.any_eq_true.mpr ⟨p, hp, by simp [hpk]⟩)
    rw [List.map_append]
    simp [List.nodup_append, h, hk]

/-- Registration of a single operation preserves pairwise-distinct operation
keys. -/
theorem register_preserves_nodup (r : OperationRegistry)
    (opKind : OperationKind) (data : OperationData) (kind : SchemaKind)
    (h : (StrMap.keys r.operations).Nodup) :
    (StrMap.keys ((r.register opKind data kind).1).operations).Nodup :=
  strmap_insert_keys_nodup _ _ _ h

/-- Registration of a whole entity preserves pairwise-distinct operation
keys. -/
theorem register_entity_preserves_nodup (r : OperationRegistry)
    (entity : DbEntity) (relationships : List DbRelationship)
    (h : (StrMap.keys r.operations).Nodup) :
    (StrMap.keys ((r.register_entity entity relationships).operations)).Nodup :=
  register_preserves_nodup _ _ _ _
    (register_preserves_nodup _ _ _ _
      (register_preserves_nodup _ _ _ _
        (register_preserves_nodup _ _ _ _
          (register_preserves_nodup _ _ _ _
            (register_preserves_nodup _ _ _ _
              (register_preserves_nodup _ _ _ _ h))))))

/-- C6 (amended): duplicate operation keys do not abort startup — insertion
silently replaces the earlier entry — and the registry's operation keys are
pairwise unique after any boot sequence, because insertion never creates a
second entry for an existing key. -/
theorem boot_operation_keys_pairwise_unique
    (entities : List (DbEntity × List DbRelationship)) :
    (StrMap.keys ((entities.foldl
        (fun r e => r.register_entity e.1 e.2)
        OperationRegistry.new).operations)).Nodup := by
  have main : ∀ (l : List (DbEntity × List DbRelationship))
      (r : OperationRegistry), (StrMap.keys r.operations).Nodup →
      (StrMap.keys ((l.foldl (fun r e => r.register_entity e.1 e.2)
          r).operations)).Nodup := by
    intro l
    induction l with
    | nil => intro r h; exact h
    | cons a as ih =>
      intro r h
      exact ih _ (register_entity_preserves_nodup r a.1 a.2 h)
  exact main entities OperationRegistry.new List.nodup_nil

/-- C6 counterexample: registering a second entity whose operation keys
duplicate an earlier entity's does not abort — the registry still ends up
with seven well-formed entries, and the entry under the duplicated key
`getBook` now holds the second entity's data, the first entity's operation
having been silently replaced. -/
theorem duplicate_key_overwrites_silently :
    (((OperationRegistry.new).register_entity bookEntityAlt []).register_entity
        bookEntity []).operations.size = 7
    ∧ ((((OperationRegistry.new).register_entity bookEntityAlt
          []).register_entity bookEntity []).operations.find? "getBook")
        = some { data := { entity := bookEntity, relationships := [] },
                 kind := SchemaKind.query, opKind := OperationKind.get }
    ∧ ¬ (((((OperationRegistry.new).register_entity bookEntityAlt
          []).register_entity bookEntity []).operations.find? "getBook")
        = some { data := { entity := bookEntityAlt, relationships := [] },
                 kind := SchemaKind.query, opKind := OperationKind.get }) := by
  refine ⟨by decide, by decide, by decide⟩

end Alchemy
